import Mathlib

/-!
# Verification of the decimal conversion engine of `DataTypes/DataTypesDecimal.h`

Shallow embedding of the fixed-point decimal subsystem: the four storage
widths (Int32/Int64/Int128/Int256), the cross-width rescale engine
`convertDecimals`, the native conversion engine `convertToDecimal`
(floating and integer sources), the promotion rule documented on the
`DataTypeDecimal` class, and the `getDecimalScale` / `getDecimalPrecision`
accessors.

Machine integers are modelled as `Int` with explicit range side conditions
(`minInt` / `maxInt` of a `Width`); the final `static_cast` to the
destination native type is modelled as a two's-complement wrap
(`wrapToWidth`), and the theorems show that under the overflow checks the
wrap is the identity.
-/

set_option maxRecDepth 100000

namespace DecimalSpec

/-- The four storage widths of the decimal family (Int32/Int64/Int128/Int256). -/
inductive Width where
  | w32
  | w64
  | w128
  | w256
deriving DecidableEq, Repr

/-- Bit width of the backing signed integer. -/
def Width.bits : Width → Nat
  | .w32 => 32
  | .w64 => 64
  | .w128 => 128
  | .w256 => 256

/-- Maximum decimal precision of each width (header comment, lines 18-22):
Int32 → 9, Int64 → 18, Int128 → 38, Int256 → 76. -/
def Width.maxPrecision : Width → Nat
  | .w32 => 9
  | .w64 => 18
  | .w128 => 38
  | .w256 => 76

/-- `std::numeric_limits<NativeType>::min()` for the signed integer of width `w`. -/
def minInt (w : Width) : Int := -(2 ^ (w.bits - 1))

/-- `std::numeric_limits<NativeType>::max()` for the signed integer of width `w`. -/
def maxInt (w : Width) : Int := 2 ^ (w.bits - 1) - 1

/-- `v` is representable by the signed integer of width `w`. -/
def inRange (w : Width) (v : Int) : Prop := minInt w ≤ v ∧ v ≤ maxInt w

instance (w : Width) (v : Int) : Decidable (inRange w v) := by
  unfold inRange; infer_instance

/-- `static_cast` to the signed integer of width `w`: two's-complement wrap. -/
def wrapToWidth (w : Width) (v : Int) : Int :=
  (v + 2 ^ (w.bits - 1)) % 2 ^ w.bits - 2 ^ (w.bits - 1)

/-- `MaxFieldType = std::conditional_t<(sizeof(From) > sizeof(To)), From, To>`
(line 105): the wider of the two operand widths, preferring `To` on a tie. -/
def maxFieldWidth (f t : Width) : Width := if t.bits < f.bits then f else t

/-- Modelled from the spec: `DecimalUtils::scaleMultiplier<T>(k)` (declared in
`DecimalUtils.h`, not part of this source tree) — "10^k as a width-W integer,
k ∈ [0, maxPrecision(width)]"; a pure power-of-ten lookup. -/
def scaleMultiplier (k : Nat) : Int := 10 ^ k

/-- Modelled from the spec: `common::mulOverflow` (declared in
`common/arithmeticOverflow.h`, not part of this source tree) — checked
multiplication "returning a success indicator plus result": reports overflow
exactly when the mathematical product is not representable in width `w`. -/
def mulOverflow (w : Width) (a b : Int) : Bool :=
  decide (a * b < minInt w) || decide (maxInt w < a * b)

/-- The error raised by the conversion engine (`ErrorCodes::DECIMAL_OVERFLOW`). -/
inductive ConvError where
  | DECIMAL_OVERFLOW
deriving DecidableEq, Repr

instance {ε α : Type} [DecidableEq ε] [DecidableEq α] : DecidableEq (Except ε α)
  | Except.error a, Except.error b =>
    if h : a = b then isTrue (by rw [h]) else isFalse (fun hh => h (by cases hh; rfl))
  | Except.error _, Except.ok _ => isFalse (fun hh => by cases hh)
  | Except.ok _, Except.error _ => isFalse (fun hh => by cases hh)
  | Except.ok a, Except.ok b =>
    if h : a = b then isTrue (by rw [h]) else isFalse (fun hh => h (by cases hh; rfl))

/-- First phase of `convertDecimals` (lines 108-117): the intermediate
`converted_value` computed in `MaxNativeType` (width `wide`).
If `scale_to > scale_from`, checked multiplication by `10^(scale_to - scale_from)`
failing with `DECIMAL_OVERFLOW` on overflow; otherwise truncating division by
`10^(scale_from - scale_to)`. -/
def rescaleIntermediate (wide : Width) (value : Int) (scale_from scale_to : Nat) :
    Except ConvError Int :=
  if scale_from < scale_to then
    if mulOverflow wide value (scaleMultiplier (scale_to - scale_from)) then
      Except.error ConvError.DECIMAL_OVERFLOW
    else
      Except.ok (value * scaleMultiplier (scale_to - scale_from))
  else
    Except.ok (Int.tdiv value (scaleMultiplier (scale_from - scale_to)))

/-- `convertDecimals` (lines 99-128): rescale a raw value of width `fw` at
`scale_from` to width `tw` at `scale_to`. After the intermediate is computed in
the wider width, a bounds check against the destination's native range runs
exactly when `sizeof(From) > sizeof(To)` (lines 119-125), and the result is the
intermediate `static_cast` to the destination native type (line 127). -/
def convertDecimals (fw tw : Width) (value : Int) (scale_from scale_to : Nat) :
    Except ConvError Int :=
  match rescaleIntermediate (maxFieldWidth fw tw) value scale_from scale_to with
  | Except.error e => Except.error e
  | Except.ok converted_value =>
    if tw.bits < fw.bits then
      if converted_value < minInt tw ∨ maxInt tw < converted_value then
        Except.error ConvError.DECIMAL_OVERFLOW
      else
        Except.ok (wrapToWidth tw converted_value)
    else
      Except.ok (wrapToWidth tw converted_value)

example : convertDecimals .w32 .w32 999999999 0 1 =
    Except.error ConvError.DECIMAL_OVERFLOW := by decide
example : convertDecimals .w32 .w32 12345 3 1 = Except.ok 123 := by decide
example : convertDecimals .w32 .w32 (-12345) 3 1 = Except.ok (-123) := by decide
example : convertDecimals .w64 .w32 1000000000 0 1 =
    Except.error ConvError.DECIMAL_OVERFLOW := by decide
example : mulOverflow (maxFieldWidth .w64 .w32) 1000000000 (scaleMultiplier 1) = false := by
  decide

/-- Classification of a floating-point input to `convertToDecimal`:
`std::isfinite(value)` is false exactly on the first three constructors.
A finite value carries its exact rational magnitude. -/
inductive Fp where
  | nan
  | posInf
  | negInf
  | finite (x : ℚ)

/-- `std::isfinite` on the classification. -/
def Fp.isFinite : Fp → Bool
  | .nan => false
  | .posInf => false
  | .negInf => false
  | .finite _ => true

/-- Floating branch of `convertToDecimal` (lines 147-169). The guard at line 149
throws `DECIMAL_OVERFLOW` whenever `!std::isfinite(value)`. The arithmetic on a
finite value — `value * 10^scale` rounded in the source floating precision, the
range check against the destination bounds, and the truncating cast (lines
153-169) — depends on IEEE-754 rounding and is kept abstract as the parameter
`finiteCase`, so every theorem about the guard holds for any model of it. -/
def convertToDecimalFloat (finiteCase : ℚ → Width → Nat → Except ConvError Int)
    (tw : Width) (value : Fp) (scale : Nat) : Except ConvError Int :=
  match value with
  | .nan => Except.error ConvError.DECIMAL_OVERFLOW
  | .posInf => Except.error ConvError.DECIMAL_OVERFLOW
  | .negInf => Except.error ConvError.DECIMAL_OVERFLOW
  | .finite x => finiteCase x tw scale

/-- An integer-typed input to `convertToDecimal`, tagged with the dispatch class
used at lines 173-178: `big` for the oversized integer types (`is_big_int_v`),
`u64` for `UInt64`, `other` for every remaining native integer type
(Int8..Int64, UInt8..UInt32). -/
inductive IntSource where
  | big (v : Int)
  | u64 (v : Int)
  | other (v : Int)

/-- The raw integer carried by an `IntSource`. -/
def IntSource.val : IntSource → Int
  | .big v => v
  | .u64 v => v
  | .other v => v

/-- The source value lies in the range of its C++ type: an oversized integer fits
a signed 256-bit integer, a `UInt64` lies in `[0, 2^64)`, and every remaining
native integer type embeds into `Int64`. -/
def IntSource.typeRange : IntSource → Prop
  | .big v => -(2 ^ 255) ≤ v ∧ v ≤ 2 ^ 255 - 1
  | .u64 v => 0 ≤ v ∧ v ≤ 2 ^ 64 - 1
  | .other v => -(2 ^ 63) ≤ v ∧ v ≤ 2 ^ 63 - 1

/-- The decimal width the integer branch of `convertToDecimal` dispatches to
(lines 173-178): `Decimal256` for big integers, `Decimal128` for `UInt64`,
`Decimal64` otherwise. -/
def IntSource.sourceWidth : IntSource → Width
  | .big _ => Width.w256
  | .u64 _ => Width.w128
  | .other _ => Width.w64

/-- Integer branch of `convertToDecimal` (lines 171-179): the source value is
handed to `convertDecimals` with `scale_from = 0` and `scale_to = scale`, as a
decimal of width 256 for big integers, 128 for `UInt64`, 64 otherwise. -/
def convertToDecimalInt (tw : Width) (s : IntSource) (scale : Nat) :
    Except ConvError Int :=
  match s with
  | .big v => convertDecimals Width.w256 tw v 0 scale
  | .u64 v => convertDecimals Width.w128 tw v 0 scale
  | .other v => convertDecimals Width.w64 tw v 0 scale

/-- Modelled from the spec: the Promotion Resolver (the result-type computation
is not part of this source tree; its rule is the `DataTypeDecimal` header
comment, lines 23-25): "Operation between two decimals leads to Decimal(P, S)
where P ... equals to the maximum precision for the biggest underlying type of
operands, S is maximum scale of operands." -/
def promotionResult (wa : Width) (sa : Nat) (wb : Width) (sb : Nat) : Nat × Nat :=
  ((maxFieldWidth wa wb).maxPrecision, max sa sb)

/-- A runtime data type as seen by `checkDecimal` / `getDecimalScale` /
`getDecimalPrecision`: either one of the four decimal types (width, precision,
scale) or some non-decimal type, identified by an opaque tag. -/
inductive DataType where
  | decimal (w : Width) (precision scale : Nat)
  | nonDecimal (tag : Nat)
deriving DecidableEq, Repr

/-- `checkDecimal<DecimalN>` (lines 61-65): `typeid_cast` succeeds exactly when
the dynamic type is the decimal type of width `w`, exposing (precision, scale). -/
def checkDecimal (w : Width) (t : DataType) : Option (Nat × Nat) :=
  match t with
  | .decimal w' p s => if w' = w then some (p, s) else none
  | .nonDecimal _ => none

/-- `std::numeric_limits<UInt32>::max()`, the default of `getDecimalScale`'s
`default_value` parameter (line 67). -/
def uint32Max : Nat := 4294967295

/-- `getDecimalScale` (lines 67-78): the scale of a decimal type, tried at the
four widths in order; `default_value` for every other type. -/
def getDecimalScale (t : DataType) (default_value : Nat) : Nat :=
  match checkDecimal Width.w32 t with
  | some ps => ps.2
  | none =>
    match checkDecimal Width.w64 t with
    | some ps => ps.2
    | none =>
      match checkDecimal Width.w128 t with
      | some ps => ps.2
      | none =>
        match checkDecimal Width.w256 t with
        | some ps => ps.2
        | none => default_value

/-- `getDecimalPrecision` (lines 80-91): the precision of a decimal type, tried
at the four widths in order; `0` for every other type. -/
def getDecimalPrecision (t : DataType) : Nat :=
  match checkDecimal Width.w32 t with
  | some ps => ps.1
  | none =>
    match checkDecimal Width.w64 t with
    | some ps => ps.1
    | none =>
      match checkDecimal Width.w128 t with
      | some ps => ps.1
      | none =>
        match checkDecimal Width.w256 t with
        | some ps => ps.1
        | none => 0

example : promotionResult .w32 2 .w64 4 = (18, 4) := by decide
example : getDecimalScale (.nonDecimal 7) uint32Max = 4294967295 := by decide
example : getDecimalPrecision (.decimal .w128 30 5) = 30 := by decide
example : convertToDecimalInt .w128 (.u64 (2 ^ 64 - 1)) 2 =
    Except.ok ((2 ^ 64 - 1) * 100) := by decide

/-! ## Helper lemmas -/

theorem minInt_nonpos (w : Width) : minInt w ≤ 0 := by
  cases w <;> decide

theorem maxInt_nonneg (w : Width) : 0 ≤ maxInt w := by
  cases w <;> decide

/-- Under the overflow checks the final `static_cast` is the identity: wrapping
a value that already fits the destination width changes nothing. -/
theorem wrapToWidth_eq_of_inRange {w : Width} {v : Int} (h : inRange w v) :
    wrapToWidth w v = v := by
  obtain ⟨h1, h2⟩ := h
  cases w <;>
    (simp only [wrapToWidth, minInt, maxInt, Width.bits] at * <;> norm_num at * <;> omega)

/-- A value representable at a width stays representable at any wider width. -/
theorem inRange_mono {f t : Width} {v : Int} (hw : f.bits ≤ t.bits)
    (h : inRange f v) : inRange t v := by
  obtain ⟨h1, h2⟩ := h
  cases f <;> cases t <;>
    (simp only [inRange, minInt, maxInt, Width.bits] at * <;> norm_num at * <;> omega)

/-- Truncating division by a positive divisor never leaves the representable
range: the quotient lies between 0 and the dividend. -/
theorem tdiv_inRange {w : Width} {v m : Int} (hm : 0 < m) (h : inRange w v) :
    inRange w (Int.tdiv v m) := by
  obtain ⟨h1, h2⟩ := h
  rcases le_or_lt 0 v with hv | hv
  · have hq1 : 0 ≤ Int.tdiv v m := Int.tdiv_nonneg hv (le_of_lt hm)
    have hq2 : Int.tdiv v m ≤ v := by
      rw [Int.tdiv_eq_ediv hv (le_of_lt hm)]
      exact Int.ediv_le_self m hv
    exact ⟨le_trans (minInt_nonpos w) hq1, le_trans hq2 h2⟩
  · have hneg : Int.tdiv v m = -(Int.tdiv (-v) m) := by
      rw [← Int.neg_tdiv, neg_neg]
    have hv' : 0 ≤ -v := by omega
    have hq1 : 0 ≤ Int.tdiv (-v) m := Int.tdiv_nonneg hv' (le_of_lt hm)
    have hq2 : Int.tdiv (-v) m ≤ -v := by
      rw [Int.tdiv_eq_ediv hv' (le_of_lt hm)]
      exact Int.ediv_le_self m hv'
    constructor
    · rw [hneg]; omega
    · rw [hneg]
      exact le_trans (by omega) (maxInt_nonneg w)

theorem scaleMultiplier_pos (k : Nat) : 0 < scaleMultiplier k := by
  unfold scaleMultiplier; positivity

/-- The wider width dominates the source width. -/
theorem bits_le_maxFieldWidth_left (f t : Width) :
    f.bits ≤ (maxFieldWidth f t).bits := by
  unfold maxFieldWidth; split <;> omega

/-- The wider width dominates the destination width. -/
theorem bits_le_maxFieldWidth_right (f t : Width) :
    t.bits ≤ (maxFieldWidth f t).bits := by
  unfold maxFieldWidth; split <;> omega

/-- When the destination is at least as wide as the source, `MaxFieldType` is
the destination. -/
theorem maxFieldWidth_eq_right {f t : Width} (h : f.bits ≤ t.bits) :
    maxFieldWidth f t = t := by
  unfold maxFieldWidth; split
  · omega
  · rfl

/-- A successful multiplication check means the product fits the wide width. -/
theorem inRange_of_mulOverflow_false {w : Width} {a b : Int}
    (h : mulOverflow w a b = false) : inRange w (a * b) := by
  unfold mulOverflow at h
  simp only [Bool.or_eq_false_iff, decide_eq_false_iff_not, not_lt] at h
  exact ⟨h.1, h.2⟩

/-- A successful intermediate stays in the wide width's range, provided the
input was representable there. -/
theorem rescaleIntermediate_ok_inRange {wide : Width} {v cv : Int}
    {sf st : Nat} (hv : inRange wide v)
    (h : rescaleIntermediate wide v sf st = Except.ok cv) : inRange wide cv := by
  unfold rescaleIntermediate at h
  split at h
  · split at h
    · cases h
    · rename_i hmul
      cases h
      exact inRange_of_mulOverflow_false (by simpa using hmul)
  · cases h
    exact tdiv_inRange (scaleMultiplier_pos _) hv

theorem rescaleIntermediate_up (wide : Width) (v : Int) (sf st : Nat) (h : sf < st) :
    rescaleIntermediate wide v sf st =
      if mulOverflow wide v (scaleMultiplier (st - sf)) then
        Except.error ConvError.DECIMAL_OVERFLOW
      else Except.ok (v * scaleMultiplier (st - sf)) := by
  unfold rescaleIntermediate; rw [if_pos h]

theorem rescaleIntermediate_down (wide : Width) (v : Int) (sf st : Nat) (h : ¬ sf < st) :
    rescaleIntermediate wide v sf st =
      Except.ok (Int.tdiv v (scaleMultiplier (sf - st))) := by
  unfold rescaleIntermediate; rw [if_neg h]

/-- An error of the intermediate phase propagates. -/
theorem convertDecimals_error_of_step {fw tw : Width} {v : Int} {sf st : Nat}
    {e : ConvError}
    (h : rescaleIntermediate (maxFieldWidth fw tw) v sf st = Except.error e) :
    convertDecimals fw tw v sf st = Except.error e := by
  unfold convertDecimals; rw [h]

/-- Without narrowing (destination at least as wide as the source), a
successful intermediate is returned after the cast. -/
theorem convertDecimals_ok_of_wide {fw tw : Width} {v cv : Int} {sf st : Nat}
    (hw : ¬ tw.bits < fw.bits)
    (h : rescaleIntermediate (maxFieldWidth fw tw) v sf st = Except.ok cv) :
    convertDecimals fw tw v sf st = Except.ok (wrapToWidth tw cv) := by
  unfold convertDecimals; rw [h]; simp [hw]

/-- With narrowing (source strictly wider than destination), a successful
intermediate goes through the destination bounds check. -/
theorem convertDecimals_narrow {fw tw : Width} {v cv : Int} {sf st : Nat}
    (hw : tw.bits < fw.bits)
    (h : rescaleIntermediate (maxFieldWidth fw tw) v sf st = Except.ok cv) :
    convertDecimals fw tw v sf st =
      if cv < minInt tw ∨ maxInt tw < cv then Except.error ConvError.DECIMAL_OVERFLOW
      else Except.ok (wrapToWidth tw cv) := by
  unfold convertDecimals; rw [h]; simp [hw]

/-- Inversion of a successful conversion: the intermediate succeeded, the result
is its cast, and under narrowing the intermediate passed the bounds check. -/
theorem convertDecimals_ok_inv {fw tw : Width} {v r : Int} {sf st : Nat}
    (h : convertDecimals fw tw v sf st = Except.ok r) :
    ∃ cv, rescaleIntermediate (maxFieldWidth fw tw) v sf st = Except.ok cv ∧
      r = wrapToWidth tw cv ∧ (tw.bits < fw.bits → inRange tw cv) := by
  rcases hstep : rescaleIntermediate (maxFieldWidth fw tw) v sf st with e | cv
  · rw [convertDecimals_error_of_step hstep] at h; cases h
  · refine ⟨cv, rfl, ?_, ?_⟩
    · by_cases hn : tw.bits < fw.bits
      · rw [convertDecimals_narrow hn hstep] at h
        split at h
        · cases h
        · injection h with h'; exact h'.symm
      · rw [convertDecimals_ok_of_wide hn hstep] at h
        injection h with h'; exact h'.symm
    · intro hn
      rw [convertDecimals_narrow hn hstep] at h
      split at h
      · cases h
      · rename_i hcv
        simp only [not_or, not_lt] at hcv
        exact ⟨hcv.1, hcv.2⟩

/-- Scaling down to an exact quotient that fits the destination always
succeeds with that quotient. -/
theorem convertDecimals_down_exact (fw tw : Width) (x v : Int) (sf st : Nat)
    (hst : st ≤ sf)
    (hdiv : Int.tdiv x (scaleMultiplier (sf - st)) = v)
    (hv : inRange tw v) :
    convertDecimals fw tw x sf st = Except.ok v := by
  have hstep : rescaleIntermediate (maxFieldWidth fw tw) x sf st = Except.ok v := by
    rw [rescaleIntermediate_down _ _ _ _ (by omega), hdiv]
  by_cases hn : tw.bits < fw.bits
  · rw [convertDecimals_narrow hn hstep,
      if_neg (by simp only [not_or, not_lt]; exact ⟨hv.1, hv.2⟩),
      wrapToWidth_eq_of_inRange hv]
  · rw [convertDecimals_ok_of_wide hn hstep, wrapToWidth_eq_of_inRange hv]

/-! ## Claim theorems -/

/-- C1 (counterexample): the claim says `convertDecimals` fails with
`DECIMAL_OVERFLOW` *exactly* when the checked multiplication in the wider
width overflows. Rescaling the Decimal64 raw value `10^9` from scale 0 to
scale 1 into Decimal32 refutes the "only when" direction: the multiplication
`10^9 * 10` does not overflow Int64 (the wider width), yet the conversion
fails because of the separate destination bounds check. -/
theorem C1_counterexample :
    mulOverflow (maxFieldWidth Width.w64 Width.w32) 1000000000 (scaleMultiplier 1) = false
    ∧ convertDecimals Width.w64 Width.w32 1000000000 0 1 =
        Except.error ConvError.DECIMAL_OVERFLOW := by
  decide

/-- C1 (amended): for `scale_to > scale_from`, `convertDecimals` computes
`value * 10^(scale_to - scale_from)` with checked multiplication in the wider
of the two operand widths and fails with `DECIMAL_OVERFLOW` whenever that
multiplication overflows; when the destination width is at least the source
width the failure is exact — it fails iff the multiplication overflows, and
otherwise returns the product. In particular rescaling the Decimal32 value
`999999999` from scale 0 to scale 1 fails with `DECIMAL_OVERFLOW`. -/
theorem C1_scale_up_checked_mul (fw tw : Width) (v : Int) (sf st : Nat)
    (h : sf < st) :
    (mulOverflow (maxFieldWidth fw tw) v (scaleMultiplier (st - sf)) = true →
      convertDecimals fw tw v sf st = Except.error ConvError.DECIMAL_OVERFLOW)
    ∧ (fw.bits ≤ tw.bits →
        (convertDecimals fw tw v sf st = Except.error ConvError.DECIMAL_OVERFLOW ↔
          mulOverflow (maxFieldWidth fw tw) v (scaleMultiplier (st - sf)) = true))
    ∧ (fw.bits ≤ tw.bits →
        mulOverflow (maxFieldWidth fw tw) v (scaleMultiplier (st - sf)) = false →
        convertDecimals fw tw v sf st = Except.ok (v * scaleMultiplier (st - sf)))
    ∧ convertDecimals Width.w32 Width.w32 999999999 0 1 =
        Except.error ConvError.DECIMAL_OVERFLOW := by
  have hstep := rescaleIntermediate_up (maxFieldWidth fw tw) v sf st h
  have part1 : mulOverflow (maxFieldWidth fw tw) v (scaleMultiplier (st - sf)) = true →
      convertDecimals fw tw v sf st = Except.error ConvError.DECIMAL_OVERFLOW := by
    intro hmul
    exact convertDecimals_error_of_step (by rw [hstep, if_pos hmul])
  have part3 : fw.bits ≤ tw.bits →
      mulOverflow (maxFieldWidth fw tw) v (scaleMultiplier (st - sf)) = false →
      convertDecimals fw tw v sf st = Except.ok (v * scaleMultiplier (st - sf)) := by
    intro hw hmul
    have hok : rescaleIntermediate (maxFieldWidth fw tw) v sf st =
        Except.ok (v * scaleMultiplier (st - sf)) := by
      rw [hstep, if_neg (by simp [hmul])]
    rw [convertDecimals_ok_of_wide (by omega) hok]
    congr 1
    apply wrapToWidth_eq_of_inRange
    have hir := inRange_of_mulOverflow_false hmul
    rwa [maxFieldWidth_eq_right hw] at hir
  refine ⟨part1, fun hw => ⟨fun herr => ?_, part1⟩, part3, by decide⟩
  cases hb : mulOverflow (maxFieldWidth fw tw) v (scaleMultiplier (st - sf)) with
  | true => rfl
  | false => rw [part3 hw hb] at herr; cases herr

/-- C1 witness: the amended theorem at the claim's own instance
Decimal32, value 999999999, scale 0 → 1. -/
theorem C1_scale_up_checked_mul_witness :
    0 < 1 ∧ convertDecimals Width.w32 Width.w32 999999999 0 1 =
      Except.error ConvError.DECIMAL_OVERFLOW :=
  ⟨by decide, (C1_scale_up_checked_mul Width.w32 Width.w32 999999999 0 1 (by decide)).2.2.2⟩

/-- C2: for `scale_to ≤ scale_from`, whatever `convertDecimals` returns is
exactly `value / 10^(scale_from - scale_to)` by integer division truncated
toward zero — the fractional remainder is discarded, never rounded. In
particular raw 12345 rescaled from scale 3 to scale 1 yields 123, and the
truncation is toward zero: raw -12345 yields -123 (not -124). -/
theorem C2_scale_down_truncates (fw tw : Width) (v : Int) (sf st : Nat)
    (hst : st ≤ sf) (hv : inRange fw v) :
    (∀ r, convertDecimals fw tw v sf st = Except.ok r →
      r = Int.tdiv v (scaleMultiplier (sf - st)))
    ∧ convertDecimals Width.w32 Width.w32 12345 3 1 = Except.ok 123
    ∧ convertDecimals Width.w32 Width.w32 (-12345) 3 1 = Except.ok (-123) := by
  refine ⟨?_, by decide, by decide⟩
  intro r hr
  have hstep := rescaleIntermediate_down (maxFieldWidth fw tw) v sf st (by omega)
  by_cases hw : tw.bits < fw.bits
  · rw [convertDecimals_narrow hw hstep] at hr
    split at hr
    · cases hr
    · rename_i hcv
      injection hr with hr'
      simp only [not_or, not_lt] at hcv
      rw [← hr']
      exact wrapToWidth_eq_of_inRange ⟨hcv.1, hcv.2⟩
  · rw [convertDecimals_ok_of_wide hw hstep] at hr
    injection hr with hr'
    rw [← hr']
    apply wrapToWidth_eq_of_inRange
    exact inRange_mono (by omega) (tdiv_inRange (scaleMultiplier_pos _) hv)

/-- C2 witness: the theorem at Decimal32, raw 12345, scale 3 → 1. -/
theorem C2_scale_down_truncates_witness :
    1 ≤ 3 ∧ inRange Width.w32 12345 ∧
    convertDecimals Width.w32 Width.w32 12345 3 1 = Except.ok 123 :=
  ⟨by decide, by decide,
    (C2_scale_down_truncates Width.w32 Width.w32 12345 3 1 (by decide) (by decide)).2.1⟩

/-- C3: the destination-range bounds check runs exactly when the destination
width is narrower than the wider of the two widths (equivalently, the source
is strictly wider than the destination): in that case a successful
intermediate leads to `DECIMAL_OVERFLOW` iff it lies outside
`[minInt, maxInt]` of the destination, and to the intermediate itself
otherwise; when the destination is not narrower, the intermediate is returned
unchanged by the cast. -/
theorem C3_narrowing_bounds_check (fw tw : Width) (v cv : Int) (sf st : Nat)
    (hv : inRange fw v)
    (hstep : rescaleIntermediate (maxFieldWidth fw tw) v sf st = Except.ok cv) :
    ((tw.bits < (maxFieldWidth fw tw).bits) ↔ tw.bits < fw.bits)
    ∧ (tw.bits < (maxFieldWidth fw tw).bits →
        convertDecimals fw tw v sf st =
          if cv < minInt tw ∨ maxInt tw < cv then
            Except.error ConvError.DECIMAL_OVERFLOW
          else Except.ok cv)
    ∧ (¬ tw.bits < (maxFieldWidth fw tw).bits →
        convertDecimals fw tw v sf st = Except.ok cv) := by
  have hiff : (tw.bits < (maxFieldWidth fw tw).bits) ↔ tw.bits < fw.bits := by
    unfold maxFieldWidth; split <;> omega
  refine ⟨hiff, ?_, ?_⟩
  · intro hn
    have hw := hiff.mp hn
    rw [convertDecimals_narrow hw hstep]
    by_cases hcv : cv < minInt tw ∨ maxInt tw < cv
    · rw [if_pos hcv, if_pos hcv]
    · rw [if_neg hcv, if_neg hcv]
      congr 1
      simp only [not_or, not_lt] at hcv
      exact wrapToWidth_eq_of_inRange ⟨hcv.1, hcv.2⟩
  · intro hn
    have hw : ¬ tw.bits < fw.bits := fun hh => hn (hiff.mpr hh)
    rw [convertDecimals_ok_of_wide hw hstep]
    congr 1
    apply wrapToWidth_eq_of_inRange
    have hwide : inRange (maxFieldWidth fw tw) cv :=
      rescaleIntermediate_ok_inRange
        (inRange_mono (bits_le_maxFieldWidth_left fw tw) hv) hstep
    exact inRange_mono (by omega) hwide

/-- C3 witness: Decimal64 raw 5000000000 rescaled (same scale) into Decimal32:
the intermediate 5000000000 exceeds the Int32 range, so the narrowing check
fires and the conversion fails. -/
theorem C3_narrowing_bounds_check_witness :
    inRange Width.w64 5000000000 ∧
    rescaleIntermediate (maxFieldWidth Width.w64 Width.w32) 5000000000 1 1 =
      Except.ok 5000000000 ∧
    Width.w32.bits < (maxFieldWidth Width.w64 Width.w32).bits ∧
    convertDecimals Width.w64 Width.w32 5000000000 1 1 =
      Except.error ConvError.DECIMAL_OVERFLOW := by
  refine ⟨by decide, by decide, by decide, ?_⟩
  have hc := (C3_narrowing_bounds_check Width.w64 Width.w32 5000000000 5000000000 1 1
    (by decide) (by decide)).2.1 (by decide)
  rw [hc, if_pos (by decide)]

/-- C4: a scale-up by `k` that succeeds is undone exactly by the scale-down
by `k` in the opposite direction: the original raw value is recovered. -/
theorem C4_round_trip (fw tw : Width) (v r : Int) (sf k : Nat)
    (hv : inRange fw v)
    (h : convertDecimals fw tw v sf (sf + k) = Except.ok r) :
    convertDecimals tw fw r (sf + k) sf = Except.ok v := by
  obtain ⟨cv, hstep, hr, hnarrow⟩ := convertDecimals_ok_inv h
  have hwide_v : inRange (maxFieldWidth fw tw) v :=
    inRange_mono (bits_le_maxFieldWidth_left fw tw) hv
  have hcv_tw : inRange tw cv := by
    by_cases hn : tw.bits < fw.bits
    · exact hnarrow hn
    · have hmax : maxFieldWidth fw tw = tw := maxFieldWidth_eq_right (by omega)
      have := rescaleIntermediate_ok_inRange hwide_v hstep
      rwa [hmax] at this
  have hr' : r = cv := by rw [hr]; exact wrapToWidth_eq_of_inRange hcv_tw
  rcases Nat.eq_zero_or_pos k with hk | hk
  · subst hk
    rw [rescaleIntermediate_down _ _ _ _ (by omega)] at hstep
    injection hstep with hcv
    have hcv' : cv = v := by
      rw [← hcv]
      simp [scaleMultiplier, Int.tdiv_one]
    apply convertDecimals_down_exact _ _ _ _ _ _ (by omega) _ hv
    rw [hr', hcv']
    simp [scaleMultiplier, Int.tdiv_one]
  · rw [rescaleIntermediate_up _ _ _ _ (by omega)] at hstep
    split at hstep
    · cases hstep
    · injection hstep with hcv
      apply convertDecimals_down_exact _ _ _ _ _ _ (by omega) _ hv
      rw [hr', ← hcv]
      have hk' : sf + k - sf = k := by omega
      rw [hk']
      exact Int.mul_tdiv_cancel v (ne_of_gt (scaleMultiplier_pos k))

/-- C4 witness: Decimal32 raw 123 scaled up from 1 to 3 gives 12300; scaling
back down returns 123. -/
theorem C4_round_trip_witness :
    inRange Width.w32 123 ∧
    convertDecimals Width.w32 Width.w32 123 1 3 = Except.ok 12300 ∧
    convertDecimals Width.w32 Width.w32 12300 3 1 = Except.ok 123 :=
  ⟨by decide, by decide,
    C4_round_trip Width.w32 Width.w32 123 12300 1 2 (by decide) (by decide)⟩

/-- C5: a floating-point input that is NaN, positive infinity, or negative
infinity — exactly the non-finite classifications — makes `convertToDecimal`
fail with `DECIMAL_OVERFLOW` for every destination width and scale, whatever
the finite-value arithmetic does. -/
theorem C5_nonfinite_float_rejected
    (finiteCase : ℚ → Width → Nat → Except ConvError Int) (tw : Width)
    (value : Fp) (scale : Nat) (h : value.isFinite = false) :
    convertToDecimalFloat finiteCase tw value scale =
      Except.error ConvError.DECIMAL_OVERFLOW := by
  cases value with
  | nan => rfl
  | posInf => rfl
  | negInf => rfl
  | finite x => exact absurd h (by simp [Fp.isFinite])

/-- C5 witness: NaN into Decimal32 at scale 2, with a trivially succeeding
finite-case model. -/
theorem C5_nonfinite_float_rejected_witness :
    Fp.isFinite Fp.nan = false ∧
    convertToDecimalFloat (fun _ _ _ => Except.ok 0) Width.w32 Fp.nan 2 =
      Except.error ConvError.DECIMAL_OVERFLOW :=
  ⟨rfl, C5_nonfinite_float_rejected (fun _ _ _ => Except.ok 0) Width.w32 Fp.nan 2 rfl⟩

/-- C7: the integer branch of `convertToDecimal` treats the source as a raw
decimal at scale 0 of the dispatch width — 256-bit for oversized integers,
128-bit for UInt64, 64-bit otherwise — a width that holds every value of the
source type, and hands it to `convertDecimals` with `scale_from = 0` and
`scale_to` the target scale. -/
theorem C7_integer_source (tw : Width) (s : IntSource) (scale : Nat)
    (h : s.typeRange) :
    inRange s.sourceWidth s.val
    ∧ convertToDecimalInt tw s scale =
        convertDecimals s.sourceWidth tw s.val 0 scale := by
  cases s with
  | big v =>
    refine ⟨?_, rfl⟩
    simp only [IntSource.typeRange] at h
    simp only [inRange, IntSource.sourceWidth, IntSource.val, minInt, maxInt, Width.bits]
    norm_num
    omega
  | u64 v =>
    refine ⟨?_, rfl⟩
    simp only [IntSource.typeRange] at h
    simp only [inRange, IntSource.sourceWidth, IntSource.val, minInt, maxInt, Width.bits]
    norm_num
    omega
  | other v =>
    refine ⟨?_, rfl⟩
    simp only [IntSource.typeRange] at h
    simp only [inRange, IntSource.sourceWidth, IntSource.val, minInt, maxInt, Width.bits]
    norm_num
    omega

/-- C7 witness: the largest UInt64 value, converted into Decimal128 at
scale 2. -/
theorem C7_integer_source_witness :
    IntSource.typeRange (IntSource.u64 18446744073709551615) ∧
    inRange (IntSource.sourceWidth (IntSource.u64 18446744073709551615))
      (IntSource.val (IntSource.u64 18446744073709551615)) ∧
    convertToDecimalInt Width.w128 (IntSource.u64 18446744073709551615) 2 =
      convertDecimals (IntSource.sourceWidth (IntSource.u64 18446744073709551615))
        Width.w128 (IntSource.val (IntSource.u64 18446744073709551615)) 0 2 :=
  ⟨⟨by decide, by decide⟩,
    (C7_integer_source Width.w128 (IntSource.u64 18446744073709551615) 2
      ⟨by decide, by decide⟩).1,
    (C7_integer_source Width.w128 (IntSource.u64 18446744073709551615) 2
      ⟨by decide, by decide⟩).2⟩

/-- C8: the result descriptor of a binary operation over two decimals has as
precision the bucket from {9, 18, 38, 76} of the wider operand width and as
scale the maximum of the two scales; Decimal32(9,2) with Decimal64(18,4)
yields (18, 4). -/
theorem C8_promotion (wa : Width) (sa : Nat) (wb : Width) (sb : Nat) :
    ((promotionResult wa sa wb sb).1 = 9 ∨ (promotionResult wa sa wb sb).1 = 18 ∨
      (promotionResult wa sa wb sb).1 = 38 ∨ (promotionResult wa sa wb sb).1 = 76)
    ∧ (wb.bits ≤ wa.bits → (promotionResult wa sa wb sb).1 = wa.maxPrecision)
    ∧ (wa.bits ≤ wb.bits → (promotionResult wa sa wb sb).1 = wb.maxPrecision)
    ∧ (promotionResult wa sa wb sb).2 = max sa sb
    ∧ promotionResult Width.w32 2 Width.w64 4 = (18, 4) := by
  refine ⟨?_, ?_, ?_, rfl, by decide⟩
  · cases wa <;> cases wb <;>
      simp [promotionResult, maxFieldWidth, Width.maxPrecision, Width.bits]
  · cases wa <;> cases wb <;>
      simp [promotionResult, maxFieldWidth, Width.maxPrecision, Width.bits]
  · cases wa <;> cases wb <;>
      simp [promotionResult, maxFieldWidth, Width.maxPrecision, Width.bits]

/-- C8 witness: the theorem at Decimal32(9,2) and Decimal64(18,4). -/
theorem C8_promotion_witness :
    Width.w32.bits ≤ Width.w64.bits ∧
    (promotionResult Width.w32 2 Width.w64 4).1 = Width.w64.maxPrecision ∧
    promotionResult Width.w32 2 Width.w64 4 = (18, 4) :=
  ⟨by decide, (C8_promotion Width.w32 2 Width.w64 4).2.2.1 (by decide),
    (C8_promotion Width.w32 2 Width.w64 4).2.2.2.2⟩

/-- C9: scaling down (or keeping the scale) into a destination at least as
wide as the source is total — `convertDecimals` always succeeds, for every
input value. -/
theorem C9_scale_down_total (fw tw : Width) (v : Int) (sf st : Nat)
    (hst : st ≤ sf) (hw : fw.bits ≤ tw.bits) :
    ∃ r, convertDecimals fw tw v sf st = Except.ok r := by
  have hstep := rescaleIntermediate_down (maxFieldWidth fw tw) v sf st (by omega)
  exact ⟨_, convertDecimals_ok_of_wide (by omega) hstep⟩

/-- C9 witness: Decimal32 raw 999 scaled from 2 down to 1 into Decimal64. -/
theorem C9_scale_down_total_witness :
    1 ≤ 2 ∧ Width.w32.bits ≤ Width.w64.bits ∧
    ∃ r, convertDecimals Width.w32 Width.w64 999 2 1 = Except.ok r :=
  ⟨by decide, by decide,
    C9_scale_down_total Width.w32 Width.w64 999 2 1 (by decide) (by decide)⟩

/-- C10: on a non-decimal type `getDecimalScale` returns the caller-supplied
default (whose default is the maximum UInt32) and `getDecimalPrecision`
returns 0; on a decimal type each returns the type's actual scale or
precision. -/
theorem C10_accessors (t : DataType) (d : Nat) :
    ((∀ w p s, t ≠ DataType.decimal w p s) →
      getDecimalScale t d = d ∧ getDecimalScale t uint32Max = uint32Max ∧
        getDecimalPrecision t = 0)
    ∧ (∀ w p s, t = DataType.decimal w p s →
        getDecimalScale t d = s ∧ getDecimalPrecision t = p) := by
  constructor
  · intro h
    cases t with
    | decimal w p s => exact absurd rfl (h w p s)
    | nonDecimal tag => exact ⟨rfl, rfl, rfl⟩
  · intro w p s hEq
    subst hEq
    cases w <;> exact ⟨rfl, rfl⟩

/-- C10 witness: a non-decimal type with default 5, and Decimal64(18,4). -/
theorem C10_accessors_witness :
    (getDecimalScale (DataType.nonDecimal 0) 5 = 5 ∧
      getDecimalScale (DataType.nonDecimal 0) uint32Max = uint32Max ∧
      getDecimalPrecision (DataType.nonDecimal 0) = 0) ∧
    (getDecimalScale (DataType.decimal Width.w64 18 4) 5 = 4 ∧
      getDecimalPrecision (DataType.decimal Width.w64 18 4) = 18) :=
  ⟨(C10_accessors (DataType.nonDecimal 0) 5).1
      (fun w p s hh => DataType.noConfusion hh),
    (C10_accessors (DataType.decimal Width.w64 18 4) 5).2 Width.w64 18 4 rfl⟩

end DecimalSpec
